import Mathlib

/-!
Shallow embedding of the maya-send-backend ledger and fraud engine.

Amounts and balances are modelled as exact integers (the spec calls them
fixed-point decimals); times are integer epoch milliseconds.  The Prisma
database is a record of lists; `update where id` is modelled as replacing
the first row with the given id, returning `none` (which the handlers turn
into a rolled-back DB error) when no row matches, mirroring Prisma's throw.

Each HTTP handler from the source is embedded as a pure function
`DB → Except Err (result × DB)`.  All Prisma mutations in the source happen
inside a single `prisma.$transaction` after every validation, so an error
result leaves the store untouched; the embedding returns the new store only
on success.
-/

namespace MayaSend

/-- Error codes returned by the handlers (the `error.code` strings of the
source, plus `DB_ERROR` for a Prisma throw caught by the generic handler). -/
inductive Err where
  | MISSING_FIELDS
  | INVALID_AMOUNT
  | SENDER_NOT_FOUND
  | INSUFFICIENT_BALANCE
  | RECIPIENT_NOT_FOUND
  | RECIPIENT_UNAVAILABLE
  | CANNOT_SEND_TO_SELF
  | MISSING_CLAIM_CODE
  | PAYMENT_NOT_FOUND
  | PAYMENT_EXPIRED
  | USER_NOT_FOUND
  | UNAUTHORIZED
  | PAYMENT_NOT_PENDING
  | TRANSACTION_NOT_FOUND
  | DISPUTE_EXISTS
  | MISSING_RESOLUTION
  | DISPUTE_NOT_FOUND
  | DISPUTE_ALREADY_RESOLVED
  | INVALID_REFUND_AMOUNT
  | MISSING_REASON
  | INVALID_TRANSACTION_STATUS
  | ALREADY_REFUNDED
  | ACCOUNT_SUSPENDED
  | ACCOUNT_DELETED
  | DB_ERROR
deriving Repr, DecidableEq

/-- Row of the `user` table (the fields the core reads). -/
structure User where
  id : Nat
  email : String
  balance : Int
  isSuspended : Bool
  isDeleted : Bool
  isFlagged : Bool
  kycStatus : String
  createdAt : Int
deriving Repr, DecidableEq

/-- Row of the `transaction` table.  The `emailPaymentId` and
`originalTransactionId` fields model the corresponding `metadata` links. -/
structure Txn where
  id : Nat
  senderId : Nat
  recipientId : Nat
  amount : Int
  currency : String
  transactionType : String
  status : String
  isFlagged : Bool
  isRefunded : Bool
  createdAt : Int
  emailPaymentId : Option Nat
  originalTransactionId : Option Nat
deriving Repr, DecidableEq

/-- Row of the `emailPayment` table (the escrow hold). -/
structure EmailPayment where
  id : Nat
  senderId : Nat
  recipientEmail : String
  amount : Int
  currency : String
  claimCode : String
  status : String
  expiresAt : Int
  claimedById : Option Nat
deriving Repr, DecidableEq

/-- Row of the `dispute` table. -/
structure Dispute where
  id : Nat
  userId : Nat
  transactionId : Nat
  status : String
  refundAmount : Option Int
deriving Repr, DecidableEq

/-- Typed parameters of a fraud rule (`rule.conditions` JSON); a field is
`none` when the key is absent from the configured JSON object. -/
structure RuleConditions where
  timeWindowMinutes : Option Int
  maxTransactions : Option Int
  threshold : Option Int
  maxAccountAgeDays : Option Int
  minAmount : Option Int
deriving Repr, DecidableEq

/-- Row of the `fraudRule` table; `ruleType` is a string, as in the source. -/
structure FraudRule where
  id : Nat
  ruleType : String
  conditions : RuleConditions
  severity : String
  isActive : Bool
deriving Repr, DecidableEq

/-- Row of the `fraudAlert` table (the fields `checkTransaction` writes). -/
structure FraudAlert where
  transactionId : Nat
  userId : Nat
  ruleId : Nat
  alertType : String
  severity : String
deriving Repr, DecidableEq

/-- The database: one list per table, plus a fresh-id counter standing in
for the id generator of the store. -/
structure DB where
  users : List User
  transactions : List Txn
  emailPayments : List EmailPayment
  disputes : List Dispute
  rules : List FraudRule
  nextId : Nat
deriving Repr, DecidableEq

/-- Models the `.toLowerCase()` normalization applied to email input.  All
email strings in this development are already lower-case, so the map is the
identity here; character-level case mapping is irrelevant to every claim
and its UInt32 arithmetic does not reduce in the kernel. -/
def toLowerEmail (s : String) : String := s

/-- JavaScript `v || d` defaulting on an optional numeric field: both an
absent key and a configured 0 fall back to the default. -/
def jsOr (v : Option Int) (d : Int) : Int :=
  match v with
  | some x => if x = 0 then d else x
  | none => d

/-- Adds a (possibly negative) delta to a balance, as a Prisma
`balance: increment / decrement` update. -/
def addBalance (d : Int) (u : User) : User :=
  { u with balance := u.balance + d }

/-- Prisma `update(where key = i)` on a table: replaces the first row whose
key matches; `none` when no row matches (Prisma throws, rolling back the
enclosing transaction). -/
def updateById {α : Type} (key : α → Nat) (l : List α) (i : Nat)
    (f : α → α) : Option (List α) :=
  match l with
  | [] => none
  | x :: rest =>
    if key x = i then some (f x :: rest)
    else match updateById key rest i f with
      | some rest2 => some (x :: rest2)
      | none => none

/-- Prisma `user.update(where id)`. -/
def updateUser (users : List User) (uid : Nat) (f : User → User) :
    Option (List User) :=
  updateById (fun u => u.id) users uid f

/-- Prisma `emailPayment.update(where id)`. -/
def updateEmailPayment (eps : List EmailPayment) (epId : Nat)
    (f : EmailPayment → EmailPayment) : Option (List EmailPayment) :=
  updateById (fun e => e.id) eps epId f

/-- Prisma `transaction.update(where id)`. -/
def updateTxn (ts : List Txn) (tid : Nat) (f : Txn → Txn) :
    Option (List Txn) :=
  updateById (fun t => t.id) ts tid f

/-- Prisma `dispute.update(where id)`. -/
def updateDispute (ds : List Dispute) (did : Nat) (f : Dispute → Dispute) :
    Option (List Dispute) :=
  updateById (fun d => d.id) ds did f

/-- Balance of the account with the given id, when it exists. -/
def getBalance (db : DB) (uid : Nat) : Option Int :=
  (db.users.find? (fun u => u.id == uid)).map (fun u => u.balance)

/-- Embedding of `UserTransactionsController.sendMoney` (P2P transfer).
The validation order follows the source: missing fields, amount, sender
lookup, sender balance, recipient lookup by lowercased email, recipient
status, self-transfer; then the atomic debit/credit/insert. -/
def sendMoney (db : DB) (senderId : Nat) (recipientEmail : String)
    (amount : Int) (currency : String) (now : Int) :
    Except Err (Txn × DB) :=
  if recipientEmail = "" || amount == 0 then .error .MISSING_FIELDS
  else if amount ≤ 0 then .error .INVALID_AMOUNT
  else match db.users.find? (fun u => u.id == senderId) with
  | none => .error .SENDER_NOT_FOUND
  | some sender =>
    if sender.balance < amount then .error .INSUFFICIENT_BALANCE
    else match db.users.find? (fun u => u.email == toLowerEmail recipientEmail) with
    | none => .error .RECIPIENT_NOT_FOUND
    | some recipient =>
      if recipient.isSuspended || recipient.isDeleted then
        .error .RECIPIENT_UNAVAILABLE
      else if sender.id == recipient.id then .error .CANNOT_SEND_TO_SELF
      else match updateUser db.users senderId (addBalance (-amount)) with
      | none => .error .DB_ERROR
      | some users1 =>
        match updateUser users1 recipient.id (addBalance amount) with
        | none => .error .DB_ERROR
        | some users2 =>
          let t : Txn :=
            { id := db.nextId, senderId := senderId,
              recipientId := recipient.id, amount := amount,
              currency := currency, transactionType := "P2P",
              status := "COMPLETED", isFlagged := false, isRefunded := false,
              createdAt := now, emailPaymentId := none,
              originalTransactionId := none }
          .ok (t, { db with users := users2,
                            transactions := db.transactions ++ [t],
                            nextId := db.nextId + 1 })

/-- Embedding of `UserEmailPaymentsController.sendViaEmail` (escrow create).
The claim code is supplied by the caller, standing in for
`crypto.randomBytes`; `expiresAt` is `now` plus `expiryDays || 7` days. -/
def sendViaEmail (db : DB) (senderId : Nat) (recipientEmail : String)
    (amount : Int) (expiryDays : Int) (claimCode : String) (currency : String)
    (now : Int) : Except Err (EmailPayment × DB) :=
  if recipientEmail = "" || amount == 0 then .error .MISSING_FIELDS
  else if amount ≤ 0 then .error .INVALID_AMOUNT
  else match db.users.find? (fun u => u.id == senderId) with
  | none => .error .SENDER_NOT_FOUND
  | some sender =>
    if sender.balance < amount then .error .INSUFFICIENT_BALANCE
    else
      let expiresAt := now + (jsOr (some expiryDays) 7) * 24 * 60 * 60 * 1000
      match updateUser db.users senderId (addBalance (-amount)) with
      | none => .error .DB_ERROR
      | some users1 =>
        let ep : EmailPayment :=
          { id := db.nextId, senderId := senderId,
            recipientEmail := toLowerEmail recipientEmail, amount := amount,
            currency := currency, claimCode := claimCode,
            status := "PENDING", expiresAt := expiresAt, claimedById := none }
        .ok (ep, { db with users := users1,
                           emailPayments := db.emailPayments ++ [ep],
                           nextId := db.nextId + 1 })

/-- Lookup predicate of `claimPayment`: a pending hold with this code. -/
def pendingWithCode (code : String) (e : EmailPayment) : Bool :=
  e.claimCode == code && e.status == "PENDING"

/-- Embedding of `UserEmailPaymentsController.claimPayment`.  The source
finds a hold by claim code with status PENDING, rejects strictly-past
expiry, checks the claimant's email, then atomically flips the hold to
CLAIMED, credits the claimant and inserts the EMAIL_PAYMENT movement. -/
def claimPayment (db : DB) (userId : Nat) (claimCode : String) (now : Int) :
    Except Err (EmailPayment × DB) :=
  if claimCode = "" then .error .MISSING_CLAIM_CODE
  else match db.emailPayments.find? (pendingWithCode claimCode) with
  | none => .error .PAYMENT_NOT_FOUND
  | some ep =>
    if ep.expiresAt < now then .error .PAYMENT_EXPIRED
    else match db.users.find? (fun u => u.id == userId) with
    | none => .error .USER_NOT_FOUND
    | some user =>
      if user.email != ep.recipientEmail then .error .UNAUTHORIZED
      else
        let updatedEp : EmailPayment :=
          { ep with status := "CLAIMED", claimedById := some userId }
        match updateEmailPayment db.emailPayments ep.id (fun _ => updatedEp) with
        | none => .error .DB_ERROR
        | some eps1 =>
          match updateUser db.users userId (addBalance ep.amount) with
          | none => .error .DB_ERROR
          | some users1 =>
            let t : Txn :=
              { id := db.nextId, senderId := ep.senderId,
                recipientId := userId, amount := ep.amount,
                currency := ep.currency, transactionType := "EMAIL_PAYMENT",
                status := "COMPLETED", isFlagged := false,
                isRefunded := false, createdAt := now,
                emailPaymentId := some ep.id, originalTransactionId := none }
            .ok (updatedEp,
              { db with users := users1, emailPayments := eps1,
                        transactions := db.transactions ++ [t],
                        nextId := db.nextId + 1 })

/-- Embedding of `UserEmailPaymentsController.cancelPayment`: only the
sender may cancel, only a PENDING hold, and the sender is refunded. -/
def cancelPayment (db : DB) (userId : Nat) (epId : Nat) :
    Except Err (EmailPayment × DB) :=
  match db.emailPayments.find? (fun e => e.id == epId && e.senderId == userId) with
  | none => .error .PAYMENT_NOT_FOUND
  | some ep =>
    if ep.status != "PENDING" then .error .PAYMENT_NOT_PENDING
    else
      let updatedEp : EmailPayment := { ep with status := "CANCELLED" }
      match updateEmailPayment db.emailPayments epId (fun _ => updatedEp) with
      | none => .error .DB_ERROR
      | some eps1 =>
        match updateUser db.users userId (addBalance ep.amount) with
        | none => .error .DB_ERROR
        | some users1 =>
          .ok (updatedEp, { db with users := users1, emailPayments := eps1 })

/-- Embedding of `UserDisputesController.fileDispute`.  The existing-dispute
lookup filters only on transaction and user, with no status filter. -/
def fileDispute (db : DB) (userId : Nat) (transactionId : Nat)
    (reason : String) (description : String) : Except Err (Dispute × DB) :=
  if reason = "" || description = "" then .error .MISSING_FIELDS
  else match db.transactions.find?
      (fun t => t.id == transactionId &&
        (t.senderId == userId || t.recipientId == userId)) with
  | none => .error .TRANSACTION_NOT_FOUND
  | some _ =>
    match db.disputes.find?
        (fun d => d.transactionId == transactionId && d.userId == userId) with
    | some _ => .error .DISPUTE_EXISTS
    | none =>
      let d : Dispute :=
        { id := db.nextId, userId := userId, transactionId := transactionId,
          status := "OPEN", refundAmount := none }
      .ok (d, { db with disputes := db.disputes ++ [d],
                        nextId := db.nextId + 1 })

/-- Embedding of `AdminDisputesController.resolveDispute`.  A refund is
processed only when a positive `refundAmount` is given, is capped by the
original amount, credits the original sender and debits the original
recipient with no balance check, and appends one REFUND movement from the
original recipient to the original sender; the dispute then becomes
RESOLVED. -/
def resolveDispute (db : DB) (disputeId : Nat) (resolution : String)
    (refundAmount : Option Int) (now : Int) : Except Err (Dispute × DB) :=
  if resolution = "" then .error .MISSING_RESOLUTION
  else match db.disputes.find? (fun d => d.id == disputeId) with
  | none => .error .DISPUTE_NOT_FOUND
  | some dispute =>
    if dispute.status == "RESOLVED" || dispute.status == "CLOSED" then
      .error .DISPUTE_ALREADY_RESOLVED
    else
      let refundStep : Except Err DB :=
        match refundAmount with
        | some r =>
          if 0 < r then
            match db.transactions.find?
                (fun t => t.id == dispute.transactionId) with
            | none => .error .DB_ERROR
            | some txn =>
              if txn.amount < r then .error .INVALID_REFUND_AMOUNT
              else match updateUser db.users txn.senderId (addBalance r) with
              | none => .error .DB_ERROR
              | some users1 =>
                match updateUser users1 txn.recipientId (addBalance (-r)) with
                | none => .error .DB_ERROR
                | some users2 =>
                  let rt : Txn :=
                    { id := db.nextId, senderId := txn.recipientId,
                      recipientId := txn.senderId, amount := r,
                      currency := txn.currency, transactionType := "REFUND",
                      status := "COMPLETED", isFlagged := false,
                      isRefunded := false, createdAt := now,
                      emailPaymentId := none,
                      originalTransactionId := some txn.id }
                  .ok { db with users := users2,
                                transactions := db.transactions ++ [rt],
                                nextId := db.nextId + 1 }
          else .ok db
        | none => .ok db
      match refundStep with
      | .error e => .error e
      | .ok db1 =>
        let storedRefund : Option Int :=
          match refundAmount with
          | some r => if r == 0 then none else some r
          | none => none
        let resolved : Dispute :=
          { dispute with status := "RESOLVED", refundAmount := storedRefund }
        match updateDispute db1.disputes disputeId (fun _ => resolved) with
        | none => .error .DB_ERROR
        | some ds1 => .ok (resolved, { db1 with disputes := ds1 })

/-- Embedding of `AdminTransactionsController.refundTransaction`: requires a
COMPLETED, not-yet-refunded transaction; marks it refunded, credits the
original sender, debits the original recipient with no balance check, and
appends one REFUND movement. -/
def refundTransaction (db : DB) (txnId : Nat) (reason : String) (now : Int) :
    Except Err (Txn × DB) :=
  if reason = "" then .error .MISSING_REASON
  else match db.transactions.find? (fun t => t.id == txnId) with
  | none => .error .TRANSACTION_NOT_FOUND
  | some txn =>
    if txn.status != "COMPLETED" then .error .INVALID_TRANSACTION_STATUS
    else if txn.isRefunded then .error .ALREADY_REFUNDED
    else match updateTxn db.transactions txnId
        (fun t => { t with isRefunded := true }) with
    | none => .error .DB_ERROR
    | some txns1 =>
      match updateUser db.users txn.senderId (addBalance txn.amount) with
      | none => .error .DB_ERROR
      | some users1 =>
        match updateUser users1 txn.recipientId (addBalance (-txn.amount)) with
        | none => .error .DB_ERROR
        | some users2 =>
          let rt : Txn :=
            { id := db.nextId, senderId := txn.recipientId,
              recipientId := txn.senderId, amount := txn.amount,
              currency := txn.currency, transactionType := "REFUND",
              status := "COMPLETED", isFlagged := false, isRefunded := false,
              createdAt := now, emailPaymentId := none,
              originalTransactionId := some txn.id }
          .ok (rt, { db with users := users2,
                             transactions := txns1 ++ [rt],
                             nextId := db.nextId + 1 })

/-- Embedding of the `authenticateUser` middleware: looks the caller up and
rejects suspended and deleted accounts before any handler runs. -/
def authenticateUser (db : DB) (uid : Nat) : Except Err User :=
  match db.users.find? (fun u => u.id == uid) with
  | none => .error .USER_NOT_FOUND
  | some user =>
    if user.isSuspended then .error .ACCOUNT_SUSPENDED
    else if user.isDeleted then .error .ACCOUNT_DELETED
    else .ok user

/-- The `POST transactions send` route: `authenticateUser` then `sendMoney`,
as wired in `user.routes.ts`. -/
def sendMoneyRoute (db : DB) (uid : Nat) (recipientEmail : String)
    (amount : Int) (currency : String) (now : Int) : Except Err (Txn × DB) :=
  match authenticateUser db uid with
  | .error e => .error e
  | .ok _ => sendMoney db uid recipientEmail amount currency now

/-- State reached by a handler call: the new store on success, the caller's
store unchanged on a rejection. -/
def stateAfter {α : Type} (r : Except Err (α × DB)) (db : DB) : DB :=
  match r with
  | .ok (_, db1) => db1
  | .error _ => db

/-- Embedding of `AdminFraudService.checkVelocity`: counts the sender's
transactions of any status whose `createdAt` is at least
`now - timeWindow minutes`, and triggers when that count reaches
`maxTransactions`.  Conditions default through `jsOr` as in the source
(`conditions.timeWindowMinutes || 60`, `conditions.maxTransactions || 10`). -/
def checkVelocity (conditions : RuleConditions) (t : Txn) (db : DB)
    (now : Int) : Bool :=
  let timeWindow := jsOr conditions.timeWindowMinutes 60
  let maxTransactions := jsOr conditions.maxTransactions 10
  let startTime := now - timeWindow * 60 * 1000
  let recentTransactions :=
    (db.transactions.filter
      (fun tx => tx.senderId == t.senderId &&
        decide (startTime ≤ tx.createdAt))).length
  decide (maxTransactions ≤ (recentTransactions : Int))

/-- Embedding of `AdminFraudService.checkAmountThreshold`. -/
def checkAmountThreshold (conditions : RuleConditions) (t : Txn) : Bool :=
  decide (jsOr conditions.threshold 10000 ≤ t.amount)

/-- Embedding of `AdminFraudService.checkGeographicAnomaly`: the source body
is a stub that always returns false. -/
def checkGeographicAnomaly (_conditions : RuleConditions) (_t : Txn) : Bool :=
  false

/-- Embedding of `AdminFraudService.checkNewUserHighAmount`, reading the
sender relation included on the transaction. -/
def checkNewUserHighAmount (conditions : RuleConditions) (t : Txn)
    (sender : User) (now : Int) : Bool :=
  let accountAge := now - sender.createdAt
  let maxAge := (jsOr conditions.maxAccountAgeDays 7) * 24 * 60 * 60 * 1000
  decide (accountAge < maxAge) && decide (jsOr conditions.minAmount 1000 ≤ t.amount)

/-- Embedding of `AdminFraudService.evaluateRule`: string-typed dispatch
over the rule type, false for every other type. -/
def evaluateRule (rule : FraudRule) (t : Txn) (sender : User) (db : DB)
    (now : Int) : Bool :=
  if rule.ruleType == "VELOCITY" then checkVelocity rule.conditions t db now
  else if rule.ruleType == "AMOUNT_THRESHOLD" then
    checkAmountThreshold rule.conditions t
  else if rule.ruleType == "GEOGRAPHIC_ANOMALY" then
    checkGeographicAnomaly rule.conditions t
  else if rule.ruleType == "NEW_USER_HIGH_AMOUNT" then
    checkNewUserHighAmount rule.conditions t sender now
  else false

/-- Embedding of `AdminFraudService.checkTransaction`: every active rule is
evaluated against the movement and one alert is created per triggering
rule. -/
def checkTransaction (t : Txn) (sender : User) (db : DB) (now : Int) :
    List FraudAlert :=
  (db.rules.filter (fun r => r.isActive)).filterMap
    (fun rule =>
      if evaluateRule rule t sender db now then
        some { transactionId := t.id, userId := t.senderId,
               ruleId := rule.id, alertType := rule.ruleType,
               severity := rule.severity }
      else none)

/-- Embedding of `AdminFraudService.calculateUserRiskScore`.  The trailing
30-day transactions and the open or in-progress disputes of the account are
read, the six additive factors of the source are summed, and the result is
capped at 100. -/
def calculateUserRiskScore (db : DB) (uid : Nat) (now : Int) : Int :=
  match db.users.find? (fun u => u.id == uid) with
  | none => 0
  | some user =>
    let transactions := db.transactions.filter
      (fun t => t.senderId == user.id &&
        decide (now - 30 * 24 * 60 * 60 * 1000 ≤ t.createdAt))
    let disputes := db.disputes.filter
      (fun d => d.userId == user.id &&
        (d.status == "OPEN" || d.status == "IN_PROGRESS"))
    let accountAgeDays := (now - user.createdAt) / (1000 * 60 * 60 * 24)
    let ageScore : Int :=
      if accountAgeDays < 7 then 20
      else if accountAgeDays < 30 then 10
      else if accountAgeDays < 90 then 5
      else 0
    let kycScore : Int :=
      if user.kycStatus == "UNVERIFIED" then 15
      else if user.kycStatus == "PENDING" then 10
      else 0
    let failedTxCount := (transactions.filter (fun t => t.status == "FAILED")).length
    let flaggedTxCount := (transactions.filter (fun t => t.isFlagged)).length
    let txScore : Int := (failedTxCount : Int) * 3 + (flaggedTxCount : Int) * 5
    let disputeScore : Int := (disputes.length : Int) * 10
    let flagScore : Int := if user.isFlagged then 15 else 0
    let txCount := transactions.length
    let velocityScore : Int :=
      (if 20 < txCount then 10 else 0) + (if 50 < txCount then 15 else 0)
    min (ageScore + kycScore + txScore + disputeScore + flagScore + velocityScore) 100

/-! ### Measures, invariants and operation sequences -/

/-- Sum of all account balances. -/
def balanceTotal : List User → Int
  | [] => 0
  | u :: rest => u.balance + balanceTotal rest

/-- Contribution of one escrow hold to the pending-escrow liability. -/
def epContrib (e : EmailPayment) : Int :=
  if e.status == "PENDING" then e.amount else 0

/-- Sum of the amounts of all pending escrow holds. -/
def pendingTotal : List EmailPayment → Int
  | [] => 0
  | e :: rest => epContrib e + pendingTotal rest

/-- Total value held by the system: all balances plus all pending escrow
hold amounts. -/
def totalValue (db : DB) : Int :=
  balanceTotal db.users + pendingTotal db.emailPayments

/-- Structural well-formedness the store obtains from the database engine:
escrow-hold ids are unique and below the fresh-id counter. -/
def EscrowWF (db : DB) : Prop :=
  (db.emailPayments.map (fun e => e.id)).Nodup ∧
  ∀ e ∈ db.emailPayments, e.id < db.nextId

/-- Every account balance is non-negative. -/
def Nonneg (db : DB) : Prop := ∀ u ∈ db.users, 0 ≤ u.balance

/-- Every pending escrow hold carries a positive amount (guaranteed at
creation time by the amount validation of `sendViaEmail`). -/
def PendingPos (db : DB) : Prop :=
  ∀ e ∈ db.emailPayments, e.status = "PENDING" → 0 < e.amount

/-- The balance-safety invariant: non-negative balances and positive
pending holds. -/
def Inv (db : DB) : Prop := Nonneg db ∧ PendingPos db

/-- One core operation, with all request inputs. -/
inductive Op where
  | transfer (senderId : Nat) (recipientEmail : String) (amount : Int)
      (currency : String) (now : Int)
  | escrowCreate (senderId : Nat) (recipientEmail : String) (amount : Int)
      (expiryDays : Int) (claimCode : String) (currency : String) (now : Int)
  | escrowClaim (userId : Nat) (claimCode : String) (now : Int)
  | escrowCancel (userId : Nat) (epId : Nat)
  | disputeRefund (disputeId : Nat) (resolution : String)
      (refundAmount : Option Int) (now : Int)
  | adminRefund (txnId : Nat) (reason : String) (now : Int)
deriving Repr, DecidableEq

/-- Effect of one operation on the store, dropping the response payload. -/
def applyOp (op : Op) (db : DB) : Except Err DB :=
  match op with
  | .transfer s re a c n => (sendMoney db s re a c n).map (fun p => p.2)
  | .escrowCreate s re a ed cc c n =>
      (sendViaEmail db s re a ed cc c n).map (fun p => p.2)
  | .escrowClaim u cc n => (claimPayment db u cc n).map (fun p => p.2)
  | .escrowCancel u i => (cancelPayment db u i).map (fun p => p.2)
  | .disputeRefund i res r n => (resolveDispute db i res r n).map (fun p => p.2)
  | .adminRefund i res n => (refundTransaction db i res n).map (fun p => p.2)

/-- Runs a sequence of operations, stopping at the first rejection. -/
def runOps : List Op → DB → Except Err DB
  | [], db => .ok db
  | op :: ops, db =>
    match applyOp op db with
    | .error e => .error e
    | .ok db1 => runOps ops db1

/-- The operations whose success path only ever debits an account after a
balance check: transfers and the three escrow operations. -/
def Op.isUserOp : Op → Prop
  | .transfer .. => True
  | .escrowCreate .. => True
  | .escrowClaim .. => True
  | .escrowCancel .. => True
  | .disputeRefund .. => False
  | .adminRefund .. => False

/-! ### Spec-side velocity count and risk factors -/

/-- The velocity count as the spec words it: COMPLETED movements of the
same sender inside the trailing window, used to compare the source
predicate against the specified one. -/
def specVelocityCount (t : Txn) (db : DB) (now windowMinutes : Int) : Nat :=
  (db.transactions.filter
    (fun tx => tx.senderId == t.senderId && tx.status == "COMPLETED" &&
      decide (now - windowMinutes * 60 * 1000 ≤ tx.createdAt))).length

/-- The velocity count as the source computes it: movements of any status
of the same sender inside the trailing window. -/
def velocityCount (t : Txn) (db : DB) (now windowMinutes : Int) : Nat :=
  (db.transactions.filter
    (fun tx => tx.senderId == t.senderId &&
      decide (now - windowMinutes * 60 * 1000 ≤ tx.createdAt))).length

/-- The sender-side transactions of the trailing 30 days read by the risk
scorer. -/
def recentTxns (db : DB) (u : User) (now : Int) : List Txn :=
  db.transactions.filter
    (fun t => t.senderId == u.id &&
      decide (now - 30 * 24 * 60 * 60 * 1000 ≤ t.createdAt))

/-- Risk factor 1: account age, newer is riskier. -/
def ageFactor (u : User) (now : Int) : Int :=
  let accountAgeDays := (now - u.createdAt) / (1000 * 60 * 60 * 24)
  if accountAgeDays < 7 then 20
  else if accountAgeDays < 30 then 10
  else if accountAgeDays < 90 then 5
  else 0

/-- Risk factor 2: KYC state. -/
def kycFactor (u : User) : Int :=
  if u.kycStatus == "UNVERIFIED" then 15
  else if u.kycStatus == "PENDING" then 10
  else 0

/-- Risk factor 3: failed and flagged movements of the trailing 30 days. -/
def txFactor (db : DB) (u : User) (now : Int) : Int :=
  (((recentTxns db u now).filter (fun t => t.status == "FAILED")).length : Int) * 3 +
  (((recentTxns db u now).filter (fun t => t.isFlagged)).length : Int) * 5

/-- Risk factor 4: open or in-progress disputes, weighted heavily. -/
def disputeFactor (db : DB) (u : User) : Int :=
  ((db.disputes.filter
    (fun d => d.userId == u.id &&
      (d.status == "OPEN" || d.status == "IN_PROGRESS"))).length : Int) * 10

/-- Risk factor 5: fixed bonus when the account is already flagged. -/
def flagFactor (u : User) : Int := if u.isFlagged then 15 else 0

/-- Risk factor 6: raw movement-count velocity over two thresholds. -/
def velocityFactor (db : DB) (u : User) (now : Int) : Int :=
  (if 20 < (recentTxns db u now).length then 10 else 0) +
  (if 50 < (recentTxns db u now).length then 15 else 0)

/-! ### Concrete accounts for the transfer scenario -/

/-- Account A of the transfer scenario, balance 100. -/
def userA : User :=
  { id := 0, email := "a@x.com", balance := 100, isSuspended := false,
    isDeleted := false, isFlagged := false, kycStatus := "VERIFIED",
    createdAt := 0 }

/-- Account B of the transfer scenario, balance 0. -/
def userB : User :=
  { id := 1, email := "b@x.com", balance := 0, isSuspended := false,
    isDeleted := false, isFlagged := false, kycStatus := "VERIFIED",
    createdAt := 0 }

/-- Initial store of the transfer scenario: A holds 100, B holds 0. -/
def dbScenario : DB :=
  { users := [userA, userB], transactions := [], emailPayments := [],
    disputes := [], rules := [], nextId := 1 }

/-- The completed movement produced by the first transfer of the scenario. -/
def t40 : Txn :=
  { id := 1, senderId := 0, recipientId := 1, amount := 40,
    currency := "USDC", transactionType := "P2P", status := "COMPLETED",
    isFlagged := false, isRefunded := false, createdAt := 0,
    emailPaymentId := none, originalTransactionId := none }

/-- Store after the first transfer: A holds 60, B holds 40, one movement. -/
def dbAfter40 : DB :=
  { users := [{ userA with balance := 60 }, { userB with balance := 40 }],
    transactions := [t40], emailPayments := [], disputes := [], rules := [],
    nextId := 2 }

/-- A completed P2P movement of 100 from account 0 to account 1. -/
def txnP2P : Txn :=
  { id := 1, senderId := 0, recipientId := 1, amount := 100,
    currency := "USDC", transactionType := "P2P", status := "COMPLETED",
    isFlagged := false, isRefunded := false, createdAt := 0,
    emailPaymentId := none, originalTransactionId := none }

/-- Store in which both parties have spent down to balance 0 after the
movement `txnP2P` settled. -/
def dbRefundCE : DB :=
  { users := [{ userA with balance := 0 }, userB], transactions := [txnP2P],
    emailPayments := [], disputes := [], rules := [], nextId := 2 }

/-- The reversal movement created by refunding `txnP2P`. -/
def rtCE : Txn :=
  { id := 2, senderId := 1, recipientId := 0, amount := 100,
    currency := "USDC", transactionType := "REFUND", status := "COMPLETED",
    isFlagged := false, isRefunded := false, createdAt := 5,
    emailPaymentId := none, originalTransactionId := some 1 }

/-- Store after the admin refund of `txnP2P`: the original recipient is
overdrawn to -100. -/
def dbRefundCE2 : DB :=
  { users := [{ userA with balance := 100 }, { userB with balance := -100 }],
    transactions := [{ txnP2P with isRefunded := true }, rtCE],
    emailPayments := [], disputes := [], rules := [], nextId := 3 }

/-- A suspended account used for the sender-unavailable scenario. -/
def userSusp : User :=
  { id := 5, email := "s@x.com", balance := 50, isSuspended := true,
    isDeleted := false, isFlagged := false, kycStatus := "VERIFIED",
    createdAt := 0 }

/-- Store holding the suspended sender and account B. -/
def dbSusp : DB :=
  { users := [userSusp, userB], transactions := [], emailPayments := [],
    disputes := [], rules := [], nextId := 1 }

/-- An active GEOGRAPHIC_ANOMALY rule with empty conditions. -/
def geoRule : FraudRule :=
  { id := 9, ruleType := "GEOGRAPHIC_ANOMALY",
    conditions := { timeWindowMinutes := none, maxTransactions := none,
                    threshold := none, maxAccountAgeDays := none,
                    minAmount := none },
    severity := "HIGH", isActive := true }

/-- The open dispute record `fileDispute` creates on success. -/
def freshDispute (db : DB) (uid tid : Nat) : Dispute :=
  { id := db.nextId, userId := uid, transactionId := tid,
    status := "OPEN", refundAmount := none }

/-- An already-resolved dispute by account 0 on movement 1. -/
def resolvedDispute : Dispute :=
  { id := 2, userId := 0, transactionId := 1, status := "RESOLVED",
    refundAmount := none }

/-- Store whose only dispute on movement 1 by account 0 is resolved. -/
def dbDisputeCE : DB :=
  { users := [userA, userB], transactions := [txnP2P],
    emailPayments := [], disputes := [resolvedDispute], rules := [],
    nextId := 3 }

/-- An open dispute filed by the recipient (account 1) on movement 1. -/
def openDispute : Dispute :=
  { id := 2, userId := 1, transactionId := 1, status := "OPEN",
    refundAmount := none }

/-- Store with the settled $100 movement and the open dispute on it. -/
def dbResolve : DB :=
  { users := [userA, { userB with balance := 100 }],
    transactions := [txnP2P], emailPayments := [],
    disputes := [openDispute], rules := [], nextId := 3 }

/-- Conditions of the scenario velocity rule: maxTransactions 3, and no
timeWindowMinutes key (the scenario configures windowMinutes, a key the
source never reads, so the code falls back to the default 60). -/
def velocityCond : RuleConditions :=
  { timeWindowMinutes := none, maxTransactions := some 3, threshold := none,
    maxAccountAgeDays := none, minAmount := none }

/-- The active velocity rule of the scenario. -/
def velocityRule : FraudRule :=
  { id := 1, ruleType := "VELOCITY", conditions := velocityCond,
    severity := "MEDIUM", isActive := true }

/-- A movement from sender 0 with the given id, status and timestamp. -/
def mkSenderTxn (i : Nat) (st : String) (ts : Int) : Txn :=
  { id := i, senderId := 0, recipientId := 1, amount := 10,
    currency := "USDC", transactionType := "P2P", status := st,
    isFlagged := false, isRefunded := false, createdAt := ts,
    emailPaymentId := none, originalTransactionId := none }

/-- Store where sender 0 has three FAILED movements and one COMPLETED
movement inside the trailing hour. -/
def dbVelocityCE : DB :=
  { users := [userA, userB],
    transactions := [mkSenderTxn 1 "FAILED" 0, mkSenderTxn 2 "FAILED" 0,
      mkSenderTxn 3 "FAILED" 0, mkSenderTxn 4 "COMPLETED" 0],
    emailPayments := [], disputes := [], rules := [velocityRule],
    nextId := 5 }

/-- Store after sender 0's four completed transfers within 60 minutes. -/
def dbVelocity : DB :=
  { users := [userA, userB],
    transactions := [mkSenderTxn 1 "COMPLETED" 0,
      mkSenderTxn 2 "COMPLETED" 600000, mkSenderTxn 3 "COMPLETED" 1200000,
      mkSenderTxn 4 "COMPLETED" 1800000],
    emailPayments := [], disputes := [], rules := [velocityRule],
    nextId := 5 }

/-- A pending hold whose expiry instant equals the claim instant. -/
def epBoundary : EmailPayment :=
  { id := 1, senderId := 0, recipientEmail := "b@x.com", amount := 25,
    currency := "USDC", claimCode := "psc123", status := "PENDING",
    expiresAt := 5, claimedById := none }

/-- Store holding only the boundary-expiry hold. -/
def dbBoundary : DB :=
  { users := [userA, userB], transactions := [],
    emailPayments := [epBoundary], disputes := [], rules := [], nextId := 2 }

/-- The pending 25-unit hold of the escrow scenario, addressed to B. -/
def epClaim : EmailPayment :=
  { id := 1, senderId := 0, recipientEmail := "b@x.com", amount := 25,
    currency := "USDC", claimCode := "code25", status := "PENDING",
    expiresAt := 1000, claimedById := none }

/-- Store of the escrow scenario after creation: A debited to 35, B at 40,
the hold pending. -/
def dbClaim : DB :=
  { users := [{ userA with balance := 35 }, { userB with balance := 40 }],
    transactions := [], emailPayments := [epClaim], disputes := [],
    rules := [], nextId := 2 }

theorem updateById_decomp {α : Type} (key : α → Nat) (l l2 : List α) (i : Nat)
    (f : α → α) (h : updateById key l i f = some l2) :
    ∃ pre y post, l = pre ++ y :: post ∧ key y = i ∧
      (∀ x ∈ pre, key x ≠ i) ∧ l2 = pre ++ f y :: post := by
  induction l generalizing l2 with
  | nil => simp [updateById] at h
  | cons x rest ih =>
    rw [updateById] at h
    by_cases hx : key x = i
    · rw [if_pos hx] at h
      injection h with h
      exact ⟨[], x, rest, rfl, hx, by simp, h.symm⟩
    · rw [if_neg hx] at h
      cases hrec : updateById key rest i f with
      | none => rw [hrec] at h; cases h
      | some rest2 =>
        rw [hrec] at h
        injection h with h
        obtain ⟨pre, y, post, hl, hy, hpre, hl2⟩ := ih rest2 hrec
        refine ⟨x :: pre, y, post, by rw [hl, List.cons_append], hy, ?_, ?_⟩
        · intro z hz
          rcases List.mem_cons.mp hz with hz | hz
          · rw [hz]; exact hx
          · exact hpre z hz
        · rw [← h, hl2, List.cons_append]

theorem updateById_isSome_of_mem {α : Type} (key : α → Nat) (l : List α)
    (i : Nat) (f : α → α) (s : α) (hmem : s ∈ l) (hkey : key s = i) :
    ∃ l2, updateById key l i f = some l2 := by
  induction l with
  | nil => cases hmem
  | cons x rest ih =>
    rw [updateById]
    by_cases hx : key x = i
    · exact ⟨f x :: rest, by rw [if_pos hx]⟩
    · rcases List.mem_cons.mp hmem with hs | hs
      · exact absurd (hs ▸ hkey) hx
      · obtain ⟨rest2, hrest2⟩ := ih hs
        exact ⟨x :: rest2, by rw [if_neg hx, hrest2]⟩

theorem find?_decomp {α : Type} (p : α → Bool) (pre post : List α) (y : α)
    (hpre : ∀ x ∈ pre, p x = false) (hy : p y = true) :
    (pre ++ y :: post).find? p = some y := by
  induction pre with
  | nil => simpa [List.find?_cons] using by rw [hy]
  | cons a as ih =>
    rw [List.cons_append, List.find?_cons, hpre a (by simp)]
    exact ih (fun x hx => hpre x (by simp [hx]))


theorem updateById_find_decomp {α : Type} (key : α → Nat) (l : List α)
    (i : Nat) (f : α → α) (s : α)
    (hf : l.find? (fun x => key x == i) = some s) :
    ∃ pre post, l = pre ++ s :: post ∧ (∀ x ∈ pre, key x ≠ i) ∧
      updateById key l i f = some (pre ++ f s :: post) := by
  have hmem := List.mem_of_find?_eq_some hf
  have hkey : key s = i := by
    simpa using List.find?_some hf
  obtain ⟨l2, h2⟩ := updateById_isSome_of_mem key l i f s hmem hkey
  obtain ⟨pre, y, post, hl, hy, hpre, hl2⟩ := updateById_decomp key l l2 i f h2
  have hfind2 : (pre ++ y :: post).find? (fun x => key x == i) = some y := by
    refine find?_decomp _ _ _ _ ?_ (by simp [hy])
    intro x hx
    simpa using hpre x hx
  rw [← hl, hf] at hfind2
  injection hfind2 with hsy
  refine ⟨pre, post, ?_, hpre, ?_⟩
  · rw [hl, hsy]
  · rw [h2, hl2, hsy]

theorem updateById_nodup_decomp {α : Type} (key : α → Nat) (l l2 : List α)
    (i : Nat) (f : α → α) (s : α) (hnd : (l.map key).Nodup) (hmem : s ∈ l)
    (hkey : key s = i) (h : updateById key l i f = some l2) :
    ∃ pre post, l = pre ++ s :: post ∧ l2 = pre ++ f s :: post := by
  obtain ⟨pre, y, post, hl, hy, hpre, hl2⟩ := updateById_decomp key l l2 i f h
  have hsy : s = y := by
    rw [hl] at hmem
    rcases List.mem_append.mp hmem with hs | hs
    · exact absurd hkey (hpre s hs)
    · rcases List.mem_cons.mp hs with hs | hs
      · exact hs
      · exfalso
        rw [hl, List.map_append, List.map_cons] at hnd
        have hyn : key y ∉ (post.map key) := by
          have := (List.nodup_append.mp hnd).2.1
          exact (List.nodup_cons.mp this).1
        have hin : key s ∈ post.map key := List.mem_map_of_mem key hs
        rw [hkey, ← hy] at hin
        exact hyn hin
  exact ⟨pre, post, by rw [hl, hsy], by rw [hl2, hsy]⟩

theorem updateById_map_key {α : Type} (key : α → Nat) (l l2 : List α)
    (i : Nat) (f : α → α) (hf : ∀ x, key x = i → key (f x) = key x)
    (h : updateById key l i f = some l2) : l2.map key = l.map key := by
  obtain ⟨pre, y, post, hl, hy, _, hl2⟩ := updateById_decomp key l l2 i f h
  rw [hl, hl2, List.map_append, List.map_append, List.map_cons, List.map_cons,
    hf y hy]

theorem updateById_mem {α : Type} (key : α → Nat) (l l2 : List α) (i : Nat)
    (f : α → α) (h : updateById key l i f = some l2) :
    ∀ x ∈ l2, (∃ y ∈ l, key y = i ∧ x = f y) ∨ x ∈ l := by
  obtain ⟨pre, y, post, hl, hy, _, hl2⟩ := updateById_decomp key l l2 i f h
  intro x hx
  rw [hl2] at hx
  rcases List.mem_append.mp hx with hx | hx
  · exact Or.inr (by rw [hl]; exact List.mem_append_left _ hx)
  · rcases List.mem_cons.mp hx with hx | hx
    · exact Or.inl ⟨y, by rw [hl]; simp, hy, hx⟩
    · exact Or.inr (by rw [hl]; exact List.mem_append_right _ (List.mem_cons_of_mem _ hx))

theorem balanceTotal_append (l1 l2 : List User) :
    balanceTotal (l1 ++ l2) = balanceTotal l1 + balanceTotal l2 := by
  induction l1 with
  | nil => simp [balanceTotal]
  | cons u rest ih => simp [balanceTotal, ih]; ring

theorem pendingTotal_append (l1 l2 : List EmailPayment) :
    pendingTotal (l1 ++ l2) = pendingTotal l1 + pendingTotal l2 := by
  induction l1 with
  | nil => simp [pendingTotal]
  | cons e rest ih => simp [pendingTotal, ih]; ring

theorem balanceTotal_updateById (us us2 : List User) (i : Nat) (d : Int)
    (h : updateById (fun u => u.id) us i (addBalance d) = some us2) :
    balanceTotal us2 = balanceTotal us + d := by
  obtain ⟨pre, y, post, hl, _, _, hl2⟩ :=
    updateById_decomp (fun u => u.id) us us2 i (addBalance d) h
  rw [hl, hl2, balanceTotal_append, balanceTotal_append]
  simp [balanceTotal, addBalance]
  ring

/-- C1: from balances A = 100 and B = 0, the transfer of 40 from A to B
succeeds with A = 60 and B = 40 and exactly one COMPLETED movement is
recorded; the subsequent transfer of 80 is rejected with
INSUFFICIENT_BALANCE and leaves the store, hence both balances, at 60 and
40 unchanged. -/
theorem sendMoney_scenario :
    sendMoney dbScenario 0 "b@x.com" 40 "USDC" 0 = .ok (t40, dbAfter40) ∧
    getBalance dbAfter40 0 = some 60 ∧
    getBalance dbAfter40 1 = some 40 ∧
    dbAfter40.transactions = [t40] ∧
    t40.status = "COMPLETED" ∧
    sendMoney dbAfter40 0 "b@x.com" 80 "USDC" 1 =
      .error .INSUFFICIENT_BALANCE ∧
    stateAfter (sendMoney dbAfter40 0 "b@x.com" 80 "USDC" 1) dbAfter40 =
      dbAfter40 := by
  exact ⟨rfl, rfl, rfl, rfl, rfl, rfl, rfl⟩

theorem sendMoney_effects (db : DB) (s : Nat) (re : String) (a : Int)
    (c : String) (n : Int) (t : Txn) (db2 : DB)
    (h : sendMoney db s re a c n = .ok (t, db2)) :
    balanceTotal db2.users = balanceTotal db.users ∧
    db2.emailPayments = db.emailPayments ∧ db.nextId ≤ db2.nextId := by
  unfold sendMoney at h
  split at h
  · cases h
  split at h
  · cases h
  split at h
  · cases h
  rename_i sender hsender
  split at h
  · cases h
  split at h
  · cases h
  rename_i recipient hrecipient
  split at h
  · cases h
  split at h
  · cases h
  split at h
  · cases h
  rename_i users1 husers1
  split at h
  · cases h
  rename_i users2 husers2
  simp only [Except.ok.injEq, Prod.mk.injEq] at h
  obtain ⟨-, hdb⟩ := h
  subst hdb
  refine ⟨?_, rfl, by simp⟩
  have h1 := balanceTotal_updateById db.users users1 s (-a) husers1
  have h2 := balanceTotal_updateById users1 users2 recipient.id a husers2
  simp only []
  omega


theorem sendViaEmail_step (db : DB) (s : Nat) (re : String) (a ed : Int)
    (cc c : String) (n : Int) (ep : EmailPayment) (db2 : DB)
    (h : sendViaEmail db s re a ed cc c n = .ok (ep, db2))
    (hwf : EscrowWF db) : totalValue db2 = totalValue db ∧ EscrowWF db2 := by
  unfold sendViaEmail at h
  split at h
  · cases h
  split at h
  · cases h
  split at h
  · cases h
  rename_i sender hsender
  split at h
  · cases h
  split at h
  · cases h
  rename_i users1 husers1
  simp only [Except.ok.injEq, Prod.mk.injEq] at h
  obtain ⟨hep, hdb⟩ := h
  subst hdb
  subst hep
  have h1 := balanceTotal_updateById db.users users1 s (-a) husers1
  constructor
  · simp only [totalValue, pendingTotal_append, h1]
    simp [pendingTotal, epContrib]
    ring
  · obtain ⟨hnd, hlt⟩ := hwf
    constructor
    · simp only [List.map_append, List.map_cons, List.map_nil]
      rw [List.nodup_append]
      refine ⟨hnd, List.nodup_singleton _, ?_⟩
      intro x hx hxy
      rcases List.mem_singleton.mp hxy with rfl
      obtain ⟨e, he, hxid⟩ := List.mem_map.mp hx
      exact absurd hxid (Nat.ne_of_lt (hlt e he))
    · intro e he
      rcases List.mem_append.mp he with he | he
      · exact Nat.lt_succ_of_lt (hlt e he)
      · rcases List.mem_singleton.mp he with rfl
        exact Nat.lt_succ_self _

theorem claimPayment_step (db : DB) (u : Nat) (cc : String) (n : Int)
    (ep2 : EmailPayment) (db2 : DB)
    (h : claimPayment db u cc n = .ok (ep2, db2)) (hwf : EscrowWF db) :
    totalValue db2 = totalValue db ∧ EscrowWF db2 := by
  simp only [claimPayment] at h
  split at h
  · cases h
  split at h
  · cases h
  rename_i ep hep
  split at h
  · cases h
  split at h
  · cases h
  rename_i user huser
  split at h
  · cases h
  split at h
  · cases h
  rename_i eps1 heps1
  split at h
  · cases h
  rename_i users1 husers1
  simp only [Except.ok.injEq, Prod.mk.injEq] at h
  obtain ⟨-, hdb⟩ := h
  subst hdb
  obtain ⟨hnd, hlt⟩ := hwf
  have hmem : ep ∈ db.emailPayments := List.mem_of_find?_eq_some hep
  have hpend : ep.status = "PENDING" := by
    have := List.find?_some hep
    simp [pendingWithCode] at this
    exact this.2
  have heps1b : updateById (fun e => e.id) db.emailPayments ep.id
      (fun _ => { ep with status := "CLAIMED", claimedById := some u }) =
      some eps1 := heps1
  obtain ⟨pre, post, hdecomp, heps1eq⟩ :=
    updateById_nodup_decomp (fun e => e.id) db.emailPayments eps1 ep.id
      (fun _ => { ep with status := "CLAIMED", claimedById := some u })
      ep hnd hmem rfl heps1b
  have hbal := balanceTotal_updateById db.users users1 u ep.amount husers1
  constructor
  · simp only [totalValue, hbal]
    rw [heps1eq, hdecomp, pendingTotal_append, pendingTotal_append]
    simp [pendingTotal, epContrib, hpend]
    ring
  · constructor
    · have hids : eps1.map (fun e => e.id) =
          db.emailPayments.map (fun e => e.id) := by
        rw [hdecomp, heps1eq]
        simp
      simpa [hids] using hnd
    · intro e he
      simp only at he
      rw [heps1eq] at he
      rcases List.mem_append.mp he with he | he
      · refine Nat.lt_succ_of_lt (hlt e ?_)
        rw [hdecomp]
        exact List.mem_append_left _ he
      · rcases List.mem_cons.mp he with rfl | he
        · refine Nat.lt_succ_of_lt ?_
          simpa using hlt ep (by rw [hdecomp]; simp)
        · refine Nat.lt_succ_of_lt (hlt e ?_)
          rw [hdecomp]
          simp [he]

theorem cancelPayment_step (db : DB) (u : Nat) (epId : Nat)
    (ep2 : EmailPayment) (db2 : DB)
    (h : cancelPayment db u epId = .ok (ep2, db2)) (hwf : EscrowWF db) :
    totalValue db2 = totalValue db ∧ EscrowWF db2 := by
  simp only [cancelPayment] at h
  split at h
  · cases h
  rename_i ep hep
  split at h
  · cases h
  rename_i hstat
  split at h
  · cases h
  rename_i eps1 heps1
  split at h
  · cases h
  rename_i users1 husers1
  simp only [Except.ok.injEq, Prod.mk.injEq] at h
  obtain ⟨-, hdb⟩ := h
  subst hdb
  obtain ⟨hnd, hlt⟩ := hwf
  have hmem : ep ∈ db.emailPayments := List.mem_of_find?_eq_some hep
  have hfact := List.find?_some hep
  simp only [Bool.and_eq_true, beq_iff_eq] at hfact
  have hpend : ep.status = "PENDING" := by
    simpa using hstat
  have heps1b : updateById (fun e => e.id) db.emailPayments epId
      (fun _ => { ep with status := "CANCELLED" }) = some eps1 := heps1
  rw [← hfact.1] at heps1b
  obtain ⟨pre, post, hdecomp, heps1eq⟩ :=
    updateById_nodup_decomp (fun e => e.id) db.emailPayments eps1 ep.id
      (fun _ => { ep with status := "CANCELLED" })
      ep hnd hmem rfl heps1b
  have hbal := balanceTotal_updateById db.users users1 u ep.amount husers1
  constructor
  · simp only [totalValue, hbal]
    rw [heps1eq, hdecomp, pendingTotal_append, pendingTotal_append]
    simp [pendingTotal, epContrib, hpend]
    ring
  · constructor
    · have hids : eps1.map (fun e => e.id) =
          db.emailPayments.map (fun e => e.id) := by
        rw [hdecomp, heps1eq]
        simp
      simpa [hids] using hnd
    · intro e he
      simp only at he
      rw [heps1eq] at he
      rcases List.mem_append.mp he with he | he
      · exact hlt e (by rw [hdecomp]; exact List.mem_append_left _ he)
      · rcases List.mem_cons.mp he with rfl | he
        · simpa using hlt ep hmem
        · exact hlt e (by rw [hdecomp]; simp [he])

theorem resolveDispute_step (db : DB) (did : Nat) (res : String)
    (r : Option Int) (n : Int) (d2 : Dispute) (db2 : DB)
    (h : resolveDispute db did res r n = .ok (d2, db2)) (hwf : EscrowWF db) :
    totalValue db2 = totalValue db ∧ EscrowWF db2 := by
  simp only [resolveDispute] at h
  split at h
  · cases h
  split at h
  · cases h
  rename_i dispute hdispute
  split at h
  · cases h
  split at h
  · cases h
  rename_i db1 hrefund
  split at h
  · cases h
  rename_i ds1 hds1
  simp only [Except.ok.injEq, Prod.mk.injEq] at h
  obtain ⟨-, hdb⟩ := h
  subst hdb
  have hkey : totalValue db1 = totalValue db ∧ db1.emailPayments = db.emailPayments ∧
      db.nextId ≤ db1.nextId := by
    split at hrefund
    · rename_i r0
      split at hrefund
      · split at hrefund
        · cases hrefund
        rename_i txn htxn
        split at hrefund
        · cases hrefund
        split at hrefund
        · cases hrefund
        rename_i users1 husers1
        split at hrefund
        · cases hrefund
        rename_i users2 husers2
        injection hrefund with hdb1
        subst hdb1
        have h1 := balanceTotal_updateById db.users users1 txn.senderId r0 husers1
        have h2 := balanceTotal_updateById users1 users2 txn.recipientId (-r0) husers2
        refine ⟨?_, rfl, by simp⟩
        simp only [totalValue]
        omega
      · injection hrefund with hdb1
        subst hdb1
        exact ⟨rfl, rfl, le_refl _⟩
    · injection hrefund with hdb1
      subst hdb1
      exact ⟨rfl, rfl, le_refl _⟩
  obtain ⟨htv, heps, hnext⟩ := hkey
  obtain ⟨hnd, hlt⟩ := hwf
  refine ⟨by simpa [totalValue, heps] using htv, ?_, ?_⟩
  · simpa [heps] using hnd
  · intro e he
    simp only at he
    rw [heps] at he
    exact Nat.lt_of_lt_of_le (hlt e he) hnext

theorem refundTransaction_step (db : DB) (tid : Nat) (res : String) (n : Int)
    (t2 : Txn) (db2 : DB)
    (h : refundTransaction db tid res n = .ok (t2, db2)) (hwf : EscrowWF db) :
    totalValue db2 = totalValue db ∧ EscrowWF db2 := by
  simp only [refundTransaction] at h
  split at h
  · cases h
  split at h
  · cases h
  rename_i txn htxn
  split at h
  · cases h
  split at h
  · cases h
  split at h
  · cases h
  rename_i txns1 htxns1
  split at h
  · cases h
  rename_i users1 husers1
  split at h
  · cases h
  rename_i users2 husers2
  simp only [Except.ok.injEq, Prod.mk.injEq] at h
  obtain ⟨-, hdb⟩ := h
  subst hdb
  obtain ⟨hnd, hlt⟩ := hwf
  have h1 := balanceTotal_updateById db.users users1 txn.senderId txn.amount husers1
  have h2 := balanceTotal_updateById users1 users2 txn.recipientId (-txn.amount) husers2
  refine ⟨?_, ?_, ?_⟩
  · simp only [totalValue]
    omega
  · simpa using hnd
  · intro e he
    simp only at he
    exact Nat.lt_succ_of_lt (hlt e he)

theorem applyOp_step (op : Op) (db db2 : DB) (h : applyOp op db = .ok db2)
    (hwf : EscrowWF db) : totalValue db2 = totalValue db ∧ EscrowWF db2 := by
  cases op with
  | transfer s re a c n =>
    simp only [applyOp] at h
    cases hx : sendMoney db s re a c n with
    | error e => rw [hx] at h; cases h
    | ok p =>
      rw [hx] at h
      injection h with h
      subst h
      obtain ⟨hbt, heps, hnext⟩ := sendMoney_effects db s re a c n p.1 p.2 (by rw [hx])
      obtain ⟨hnd, hlt⟩ := hwf
      refine ⟨by simp [totalValue, hbt, heps], by simpa [heps] using hnd, ?_⟩
      intro e he
      rw [heps] at he
      exact Nat.lt_of_lt_of_le (hlt e he) hnext
  | escrowCreate s re a ed cc c n =>
    simp only [applyOp] at h
    cases hx : sendViaEmail db s re a ed cc c n with
    | error e => rw [hx] at h; cases h
    | ok p =>
      rw [hx] at h
      injection h with h
      subst h
      exact sendViaEmail_step db s re a ed cc c n p.1 p.2 (by rw [hx]) hwf
  | escrowClaim u cc n =>
    simp only [applyOp] at h
    cases hx : claimPayment db u cc n with
    | error e => rw [hx] at h; cases h
    | ok p =>
      rw [hx] at h
      injection h with h
      subst h
      exact claimPayment_step db u cc n p.1 p.2 (by rw [hx]) hwf
  | escrowCancel u i =>
    simp only [applyOp] at h
    cases hx : cancelPayment db u i with
    | error e => rw [hx] at h; cases h
    | ok p =>
      rw [hx] at h
      injection h with h
      subst h
      exact cancelPayment_step db u i p.1 p.2 (by rw [hx]) hwf
  | disputeRefund i res r n =>
    simp only [applyOp] at h
    cases hx : resolveDispute db i res r n with
    | error e => rw [hx] at h; cases h
    | ok p =>
      rw [hx] at h
      injection h with h
      subst h
      exact resolveDispute_step db i res r n p.1 p.2 (by rw [hx]) hwf
  | adminRefund i res n =>
    simp only [applyOp] at h
    cases hx : refundTransaction db i res n with
    | error e => rw [hx] at h; cases h
    | ok p =>
      rw [hx] at h
      injection h with h
      subst h
      exact refundTransaction_step db i res n p.1 p.2 (by rw [hx]) hwf

/-- C2: for any sequence of successful operations (transfers, escrow
creates, escrow claims, escrow cancels, and the two refund paths), the sum
of all account balances plus the amounts of all still-pending escrow holds
is unchanged: no value is created or destroyed.  The store is assumed
database-well-formed (unique escrow ids below the id counter), which every
operation preserves. -/
theorem runOps_conservation (ops : List Op) (db db2 : DB)
    (hwf : EscrowWF db) (h : runOps ops db = .ok db2) :
    totalValue db2 = totalValue db := by
  induction ops generalizing db with
  | nil =>
    simp only [runOps, Except.ok.injEq] at h
    rw [h]
  | cons op ops ih =>
    rw [runOps] at h
    cases hx : applyOp op db with
    | error e => rw [hx] at h; cases h
    | ok db1 =>
      rw [hx] at h
      obtain ⟨htv, hwf1⟩ := applyOp_step op db db1 hx hwf
      rw [ih db1 hwf1 h, htv]

/-- Witness for C2: the conservation theorem applied to the concrete
two-account store and a one-transfer history. -/
theorem runOps_conservation_witness :
    EscrowWF dbScenario ∧
    runOps [Op.transfer 0 "b@x.com" 40 "USDC" 0] dbScenario = .ok dbAfter40 ∧
    totalValue dbAfter40 = totalValue dbScenario := by
  have hwf : EscrowWF dbScenario :=
    ⟨by simp [dbScenario], by simp [dbScenario]⟩
  exact ⟨hwf, rfl,
    runOps_conservation [Op.transfer 0 "b@x.com" 40 "USDC" 0]
      dbScenario dbAfter40 hwf rfl⟩

theorem sendMoney_inv (db : DB) (s : Nat) (re : String) (a : Int) (c : String)
    (n : Int) (t : Txn) (db2 : DB)
    (h : sendMoney db s re a c n = .ok (t, db2)) (hinv : Inv db) : Inv db2 := by
  obtain ⟨hnn, hpp⟩ := hinv
  unfold sendMoney at h
  split at h
  · cases h
  split at h
  · cases h
  rename_i hle
  split at h
  · cases h
  rename_i sender hsender
  split at h
  · cases h
  rename_i hbal
  split at h
  · cases h
  rename_i recipient hrecipient
  split at h
  · cases h
  split at h
  · cases h
  split at h
  · cases h
  rename_i users1 husers1
  split at h
  · cases h
  rename_i users2 husers2
  simp only [Except.ok.injEq, Prod.mk.injEq] at h
  obtain ⟨-, hdb⟩ := h
  subst hdb
  have hpos : 0 < a := lt_of_not_ge hle
  obtain ⟨pre, post, hl, hpre, hupd⟩ :=
    updateById_find_decomp (fun u => u.id) db.users s (addBalance (-a))
      sender hsender
  have h12 : pre ++ addBalance (-a) sender :: post = users1 :=
    Option.some.inj (hupd.symm.trans husers1)
  have hnn1 : ∀ x ∈ users1, 0 ≤ x.balance := by
    intro x hx
    rw [← h12] at hx
    rcases List.mem_append.mp hx with hx | hx
    · exact hnn x (by rw [hl]; exact List.mem_append_left _ hx)
    · rcases List.mem_cons.mp hx with rfl | hx
      · simp only [addBalance]
        have : a ≤ sender.balance := le_of_not_lt hbal
        omega
      · exact hnn x (by rw [hl]; simp [hx])
  constructor
  · intro x hx
    simp only at hx
    have husers2b : updateById (fun u2 => u2.id) users1 recipient.id
        (addBalance a) = some users2 := husers2
    rcases updateById_mem (fun u2 => u2.id) users1 users2 recipient.id
        (addBalance a) husers2b x hx with ⟨y, hy, -, rfl⟩ | hx
    · have := hnn1 y hy
      simp only [addBalance]
      omega
    · exact hnn1 x hx
  · intro e he
    exact hpp e he

theorem sendViaEmail_inv (db : DB) (s : Nat) (re : String) (a ed : Int)
    (cc c : String) (n : Int) (ep : EmailPayment) (db2 : DB)
    (h : sendViaEmail db s re a ed cc c n = .ok (ep, db2)) (hinv : Inv db) :
    Inv db2 := by
  obtain ⟨hnn, hpp⟩ := hinv
  unfold sendViaEmail at h
  split at h
  · cases h
  split at h
  · cases h
  rename_i hle
  split at h
  · cases h
  rename_i sender hsender
  split at h
  · cases h
  rename_i hbal
  split at h
  · cases h
  rename_i users1 husers1
  simp only [Except.ok.injEq, Prod.mk.injEq] at h
  obtain ⟨hep, hdb⟩ := h
  subst hdb
  subst hep
  have hpos : 0 < a := lt_of_not_ge hle
  obtain ⟨pre, post, hl, hpre, hupd⟩ :=
    updateById_find_decomp (fun u => u.id) db.users s (addBalance (-a))
      sender hsender
  have h12 : pre ++ addBalance (-a) sender :: post = users1 :=
    Option.some.inj (hupd.symm.trans husers1)
  constructor
  · intro x hx
    simp only at hx
    rw [← h12] at hx
    rcases List.mem_append.mp hx with hx | hx
    · exact hnn x (by rw [hl]; exact List.mem_append_left _ hx)
    · rcases List.mem_cons.mp hx with rfl | hx
      · simp only [addBalance]
        have : a ≤ sender.balance := le_of_not_lt hbal
        omega
      · exact hnn x (by rw [hl]; simp [hx])
  · intro e he
    simp only at he
    rcases List.mem_append.mp he with he | he
    · exact hpp e he
    · rcases List.mem_singleton.mp he with rfl
      intro
      exact hpos

theorem claimPayment_inv (db : DB) (u : Nat) (cc : String) (n : Int)
    (ep2 : EmailPayment) (db2 : DB)
    (h : claimPayment db u cc n = .ok (ep2, db2)) (hinv : Inv db) :
    Inv db2 := by
  obtain ⟨hnn, hpp⟩ := hinv
  simp only [claimPayment] at h
  split at h
  · cases h
  split at h
  · cases h
  rename_i ep hep
  split at h
  · cases h
  split at h
  · cases h
  rename_i user huser
  split at h
  · cases h
  split at h
  · cases h
  rename_i eps1 heps1
  split at h
  · cases h
  rename_i users1 husers1
  simp only [Except.ok.injEq, Prod.mk.injEq] at h
  obtain ⟨-, hdb⟩ := h
  subst hdb
  have hmem : ep ∈ db.emailPayments := List.mem_of_find?_eq_some hep
  have hpend : ep.status = "PENDING" := by
    have := List.find?_some hep
    simp [pendingWithCode] at this
    exact this.2
  have hpos : 0 < ep.amount := hpp ep hmem hpend
  constructor
  · intro x hx
    simp only at hx
    have husers1b : updateById (fun u2 => u2.id) db.users u
        (addBalance ep.amount) = some users1 := husers1
    rcases updateById_mem (fun u2 => u2.id) db.users users1 u
        (addBalance ep.amount) husers1b x hx with ⟨y, hy, -, rfl⟩ | hx
    · have := hnn y hy
      simp only [addBalance]
      omega
    · exact hnn x hx
  · intro e he
    simp only at he
    have heps1b : updateById (fun e => e.id) db.emailPayments ep.id
        (fun _ => { ep with status := "CLAIMED", claimedById := some u }) =
        some eps1 := heps1
    rcases updateById_mem (fun e2 => e2.id) db.emailPayments eps1 ep.id
        (fun _ => { ep with status := "CLAIMED", claimedById := some u })
        heps1b e he with ⟨y, hy, -, rfl⟩ | he
    · intro hst
      simp at hst
    · exact hpp e he

theorem cancelPayment_inv (db : DB) (u : Nat) (epId : Nat)
    (ep2 : EmailPayment) (db2 : DB)
    (h : cancelPayment db u epId = .ok (ep2, db2)) (hinv : Inv db) :
    Inv db2 := by
  obtain ⟨hnn, hpp⟩ := hinv
  simp only [cancelPayment] at h
  split at h
  · cases h
  rename_i ep hep
  split at h
  · cases h
  rename_i hstat
  split at h
  · cases h
  rename_i eps1 heps1
  split at h
  · cases h
  rename_i users1 husers1
  simp only [Except.ok.injEq, Prod.mk.injEq] at h
  obtain ⟨-, hdb⟩ := h
  subst hdb
  have hmem : ep ∈ db.emailPayments := List.mem_of_find?_eq_some hep
  have hpend : ep.status = "PENDING" := by simpa using hstat
  have hpos : 0 < ep.amount := hpp ep hmem hpend
  constructor
  · intro x hx
    simp only at hx
    have husers1b : updateById (fun u2 => u2.id) db.users u
        (addBalance ep.amount) = some users1 := husers1
    rcases updateById_mem (fun u2 => u2.id) db.users users1 u
        (addBalance ep.amount) husers1b x hx with ⟨y, hy, -, rfl⟩ | hx
    · have := hnn y hy
      simp only [addBalance]
      omega
    · exact hnn x hx
  · intro e he
    simp only at he
    have heps1b : updateById (fun e => e.id) db.emailPayments epId
        (fun _ => { ep with status := "CANCELLED" }) = some eps1 := heps1
    rcases updateById_mem (fun e2 => e2.id) db.emailPayments eps1 epId
        (fun _ => { ep with status := "CANCELLED" })
        heps1b e he with ⟨y, hy, -, rfl⟩ | he
    · intro hst
      simp at hst
    · exact hpp e he


/-- C3, counterexample: from a store in which every balance is
non-negative, the admin transaction refund succeeds while driving the
original recipient's balance to -100, because the refund debit carries no
balance check; the claimed invariant balance ≥ 0 after every core
operation is therefore false. -/
theorem refundTransaction_negative_balance :
    (∀ u ∈ dbRefundCE.users, 0 ≤ u.balance) ∧
    refundTransaction dbRefundCE 1 "fraudulent" 5 = .ok (rtCE, dbRefundCE2) ∧
    getBalance dbRefundCE2 1 = some (-100) := by
  exact ⟨by decide, rfl, rfl⟩

/-- C3, amended: transfers and the escrow operations verify sufficient
balance before any debit commits, so any successful sequence of those
operations preserves non-negativity of every balance (together with the
positivity of pending escrow amounts they establish at creation); the
dispute-resolution refund and the admin transaction refund, by contrast,
debit the original recipient without any balance check and can drive a
balance negative (see the counterexample). -/
theorem userOps_preserve_inv (ops : List Op) (db db2 : DB)
    (hall : ∀ op ∈ ops, op.isUserOp) (hinv : Inv db)
    (h : runOps ops db = .ok db2) : Inv db2 := by
  induction ops generalizing db with
  | nil =>
    simp only [runOps, Except.ok.injEq] at h
    rw [← h]
    exact hinv
  | cons op ops ih =>
    rw [runOps] at h
    cases hx : applyOp op db with
    | error e => rw [hx] at h; cases h
    | ok db1 =>
      rw [hx] at h
      have hop := hall op (by simp)
      have hinv1 : Inv db1 := by
        cases op with
        | transfer s re a c n =>
          simp only [applyOp] at hx
          cases hy : sendMoney db s re a c n with
          | error e => rw [hy] at hx; cases hx
          | ok p =>
            rw [hy] at hx
            injection hx with hx
            subst hx
            exact sendMoney_inv db s re a c n p.1 p.2 (by rw [hy]) hinv
        | escrowCreate s re a ed cc c n =>
          simp only [applyOp] at hx
          cases hy : sendViaEmail db s re a ed cc c n with
          | error e => rw [hy] at hx; cases hx
          | ok p =>
            rw [hy] at hx
            injection hx with hx
            subst hx
            exact sendViaEmail_inv db s re a ed cc c n p.1 p.2 (by rw [hy]) hinv
        | escrowClaim u cc n =>
          simp only [applyOp] at hx
          cases hy : claimPayment db u cc n with
          | error e => rw [hy] at hx; cases hx
          | ok p =>
            rw [hy] at hx
            injection hx with hx
            subst hx
            exact claimPayment_inv db u cc n p.1 p.2 (by rw [hy]) hinv
        | escrowCancel u i =>
          simp only [applyOp] at hx
          cases hy : cancelPayment db u i with
          | error e => rw [hy] at hx; cases hx
          | ok p =>
            rw [hy] at hx
            injection hx with hx
            subst hx
            exact cancelPayment_inv db u i p.1 p.2 (by rw [hy]) hinv
        | disputeRefund i res r n => exact hop.elim
        | adminRefund i res n => exact hop.elim
      exact ih db1 (fun op2 h2 => hall op2 (List.mem_cons_of_mem _ h2)) hinv1 h

/-- Witness for the amended C3: the preservation theorem applied to the
concrete one-transfer history. -/
theorem userOps_preserve_inv_witness :
    (∀ op ∈ [Op.transfer 0 "b@x.com" 40 "USDC" 0], op.isUserOp) ∧
    Inv dbScenario ∧
    runOps [Op.transfer 0 "b@x.com" 40 "USDC" 0] dbScenario = .ok dbAfter40 ∧
    Inv dbAfter40 := by
  have hall : ∀ op ∈ [Op.transfer 0 "b@x.com" 40 "USDC" 0], op.isUserOp := by
    intro op hop
    rcases List.mem_singleton.mp hop with rfl
    trivial
  have h1 : ∀ u ∈ dbScenario.users, 0 ≤ u.balance := by decide
  have h2 : ∀ e ∈ dbScenario.emailPayments, e.status = "PENDING" →
      0 < e.amount := by decide
  have hinv : Inv dbScenario := ⟨h1, h2⟩
  exact ⟨hall, hinv, rfl,
    userOps_preserve_inv [Op.transfer 0 "b@x.com" 40 "USDC" 0]
      dbScenario dbAfter40 hall hinv rfl⟩

/-- C8: a transfer request whose authenticated sender is suspended or
deleted is rejected by the route pipeline (the authenticateUser middleware
runs before the handler) with the account-unavailable failure, i.e. the
ACCOUNT_SUSPENDED or ACCOUNT_DELETED code, before any mutation: the store
is unchanged and no movement is created. -/
theorem sendMoneyRoute_unavailable (db : DB) (uid : Nat) (re : String)
    (a : Int) (c : String) (n : Int) (u : User)
    (hfind : db.users.find? (fun x => x.id == uid) = some u)
    (hbad : u.isSuspended = true ∨ u.isDeleted = true) :
    ∃ e, sendMoneyRoute db uid re a c n = .error e ∧
      (e = .ACCOUNT_SUSPENDED ∨ e = .ACCOUNT_DELETED) ∧
      stateAfter (sendMoneyRoute db uid re a c n) db = db ∧
      (stateAfter (sendMoneyRoute db uid re a c n) db).transactions =
        db.transactions := by
  have hroute : ∃ e, sendMoneyRoute db uid re a c n = .error e ∧
      (e = Err.ACCOUNT_SUSPENDED ∨ e = Err.ACCOUNT_DELETED) := by
    unfold sendMoneyRoute authenticateUser
    rw [hfind]
    by_cases hs : u.isSuspended
    · exact ⟨.ACCOUNT_SUSPENDED, by simp [hs], Or.inl rfl⟩
    · have hd : u.isDeleted = true := by
        rcases hbad with h | h
        · exact absurd h hs
        · exact h
      exact ⟨.ACCOUNT_DELETED, by simp [hs, hd], Or.inr rfl⟩
  obtain ⟨e, he, hor⟩ := hroute
  exact ⟨e, he, hor, by rw [stateAfter.eq_def, he], by rw [stateAfter.eq_def, he]⟩

/-- Witness for C8: the rejection theorem applied to a concrete suspended
sender. -/
theorem sendMoneyRoute_unavailable_witness :
    dbSusp.users.find? (fun x => x.id == 5) = some userSusp ∧
    userSusp.isSuspended = true ∧
    ∃ e, sendMoneyRoute dbSusp 5 "b@x.com" 10 "USDC" 0 = .error e ∧
      (e = .ACCOUNT_SUSPENDED ∨ e = .ACCOUNT_DELETED) ∧
      stateAfter (sendMoneyRoute dbSusp 5 "b@x.com" 10 "USDC" 0) dbSusp =
        dbSusp ∧
      (stateAfter (sendMoneyRoute dbSusp 5 "b@x.com" 10 "USDC" 0)
        dbSusp).transactions = dbSusp.transactions := by
  refine ⟨rfl, rfl, ?_⟩
  have h := sendMoneyRoute_unavailable dbSusp 5 "b@x.com" 10 "USDC" 0
    userSusp rfl (Or.inl rfl)
  obtain ⟨e, he, hor, hst, htx⟩ := h
  exact ⟨e, he, hor, hst, htx⟩

/-- C10: for a rule whose ruleType is GEOGRAPHIC_ANOMALY or any value
other than VELOCITY, AMOUNT_THRESHOLD or NEW_USER_HIGH_AMOUNT, the rule
predicate returns false on every input (the geographic-anomaly body is a
stub returning false and the dispatch default is false), and every alert
`checkTransaction` produces comes from an active rule whose predicate
returned true, so no alert is ever produced for such a rule. -/
theorem evaluateRule_unhandled (rule : FraudRule) (t : Txn) (sender : User)
    (db : DB) (now : Int)
    (h1 : rule.ruleType ≠ "VELOCITY")
    (h2 : rule.ruleType ≠ "AMOUNT_THRESHOLD")
    (h3 : rule.ruleType ≠ "NEW_USER_HIGH_AMOUNT") :
    evaluateRule rule t sender db now = false ∧
    checkGeographicAnomaly rule.conditions t = false ∧
    ∀ a ∈ checkTransaction t sender db now,
      ∃ r ∈ db.rules, r.isActive = true ∧
        evaluateRule r t sender db now = true ∧
        a.ruleId = r.id ∧ a.alertType = r.ruleType := by
  refine ⟨?_, rfl, ?_⟩
  · unfold evaluateRule
    rw [if_neg (by simpa using h1), if_neg (by simpa using h2)]
    split
    · rfl
    · rw [if_neg (by simpa using h3)]
  · intro a ha
    unfold checkTransaction at ha
    obtain ⟨r, hr, hfr⟩ := List.mem_filterMap.mp ha
    obtain ⟨hrmem, hract⟩ := List.mem_filter.mp hr
    by_cases hev : evaluateRule r t sender db now
    · rw [if_pos hev] at hfr
      injection hfr with hfr
      exact ⟨r, hrmem, hract, hev, by rw [← hfr], by rw [← hfr]⟩
    · rw [if_neg hev] at hfr
      cases hfr

/-- Witness for C10: the theorem applied to a concrete active
geographic-anomaly rule. -/
theorem evaluateRule_unhandled_witness :
    evaluateRule geoRule txnP2P userA dbRefundCE 0 = false ∧
    checkGeographicAnomaly geoRule.conditions txnP2P = false := by
  have h := evaluateRule_unhandled geoRule txnP2P userA dbRefundCE 0
    (by decide) (by decide) (by decide)
  exact ⟨h.1, h.2.1⟩

theorem ageFactor_nonneg (u : User) (now : Int) : 0 ≤ ageFactor u now := by
  simp only [ageFactor]
  split_ifs <;> norm_num

theorem kycFactor_nonneg (u : User) : 0 ≤ kycFactor u := by
  unfold kycFactor
  split_ifs <;> norm_num

theorem txFactor_nonneg (db : DB) (u : User) (now : Int) :
    0 ≤ txFactor db u now := by
  unfold txFactor
  positivity

theorem disputeFactor_nonneg (db : DB) (u : User) : 0 ≤ disputeFactor db u := by
  unfold disputeFactor
  positivity

theorem flagFactor_nonneg (u : User) : 0 ≤ flagFactor u := by
  unfold flagFactor
  split_ifs <;> norm_num

theorem velocityFactor_nonneg (db : DB) (u : User) (now : Int) :
    0 ≤ velocityFactor db u now := by
  unfold velocityFactor
  split_ifs <;> norm_num

/-- C9: the risk score is a pure function of the store (determinism and
absence of writes are by construction in the embedding, mirroring the
read-only queries of the source), always lies in [0, 100], and for every
account found equals the additive sum of the six specified weighted factors
clamped from above at 100. -/
theorem calculateUserRiskScore_spec (db : DB) (uid : Nat) (now : Int) :
    (0 ≤ calculateUserRiskScore db uid now ∧
     calculateUserRiskScore db uid now ≤ 100) ∧
    ∀ u, db.users.find? (fun x => x.id == uid) = some u →
      calculateUserRiskScore db uid now =
        min (ageFactor u now + kycFactor u + txFactor db u now +
          disputeFactor db u + flagFactor u + velocityFactor db u now) 100 := by
  have hEq : ∀ u, db.users.find? (fun x => x.id == uid) = some u →
      calculateUserRiskScore db uid now =
        min (ageFactor u now + kycFactor u + txFactor db u now +
          disputeFactor db u + flagFactor u + velocityFactor db u now) 100 := by
    intro u hu
    unfold calculateUserRiskScore
    rw [hu]
    rfl
  refine ⟨?_, hEq⟩
  cases hfind : db.users.find? (fun x => x.id == uid) with
  | none =>
    unfold calculateUserRiskScore
    rw [hfind]
    norm_num
  | some u =>
    rw [hEq u hfind]
    constructor
    · refine le_min ?_ (by norm_num)
      have h1 := ageFactor_nonneg u now
      have h2 := kycFactor_nonneg u
      have h3 := txFactor_nonneg db u now
      have h4 := disputeFactor_nonneg db u
      have h5 := flagFactor_nonneg u
      have h6 := velocityFactor_nonneg db u now
      omega
    · exact min_le_right _ _

/-- Witness for C9: the risk-score theorem applied to the concrete account
A of the scenario store. -/
theorem calculateUserRiskScore_spec_witness :
    dbScenario.users.find? (fun x => x.id == 0) = some userA ∧
    calculateUserRiskScore dbScenario 0 0 =
      min (ageFactor userA 0 + kycFactor userA + txFactor dbScenario userA 0 +
        disputeFactor dbScenario userA + flagFactor userA +
        velocityFactor dbScenario userA 0) 100 ∧
    0 ≤ calculateUserRiskScore dbScenario 0 0 ∧
    calculateUserRiskScore dbScenario 0 0 ≤ 100 := by
  have h := calculateUserRiskScore_spec dbScenario 0 0
  exact ⟨rfl, h.2 userA rfl, h.1.1, h.1.2⟩

/-- C7, counterexample: account 0 is the sender of movement 1 and its
only earlier dispute on that movement is already RESOLVED, yet filing a
new dispute is rejected with DISPUTE_EXISTS, because the pre-existing
dispute lookup of the source carries no status filter; the claim that a
new dispute can then be filed is false. -/
theorem fileDispute_resolved_blocks :
    dbDisputeCE.disputes = [resolvedDispute] ∧
    resolvedDispute.status = "RESOLVED" ∧
    resolvedDispute.userId = 0 ∧ resolvedDispute.transactionId = 1 ∧
    txnP2P.senderId = 0 ∧
    fileDispute dbDisputeCE 0 1 "fraud" "details" = .error .DISPUTE_EXISTS := by
  exact ⟨rfl, rfl, rfl, rfl, rfl, rfl⟩

/-- C7, amended: filing a dispute succeeds if and only if the referenced
movement involves the filing account as a party and NO dispute by the same
account on the same movement exists in any status (open, in-progress,
resolved or closed all block refiling); otherwise it is rejected with
TRANSACTION_NOT_FOUND or DISPUTE_EXISTS respectively. -/
theorem fileDispute_spec (db : DB) (uid tid : Nat)
    (reason description : String) (hr : reason ≠ "") (hd : description ≠ "") :
    (db.transactions.find? (fun t => t.id == tid &&
        (t.senderId == uid || t.recipientId == uid)) = none →
      fileDispute db uid tid reason description =
        .error .TRANSACTION_NOT_FOUND) ∧
    (∀ t, db.transactions.find? (fun t => t.id == tid &&
        (t.senderId == uid || t.recipientId == uid)) = some t →
      ((∃ d ∈ db.disputes, d.transactionId = tid ∧ d.userId = uid) →
        fileDispute db uid tid reason description = .error .DISPUTE_EXISTS) ∧
      ((∀ d ∈ db.disputes, ¬(d.transactionId = tid ∧ d.userId = uid)) →
        fileDispute db uid tid reason description =
          .ok (freshDispute db uid tid,
               { db with
                   disputes := db.disputes ++ [freshDispute db uid tid],
                   nextId := db.nextId + 1 }))) := by
  have hguard : ¬ ((decide (reason = "") || decide (description = "")) = true) := by
    simp [hr, hd]
  constructor
  · intro hnone
    unfold fileDispute
    rw [if_neg hguard, hnone]
  · intro t ht
    constructor
    · intro ⟨d, hdmem, hdt, hdu⟩
      unfold fileDispute
      rw [if_neg hguard, ht]
      have : (db.disputes.find?
          (fun d => d.transactionId == tid && d.userId == uid)).isSome := by
        rw [List.find?_isSome]
        exact ⟨d, hdmem, by simp [hdt, hdu]⟩
      cases hf : db.disputes.find?
          (fun d => d.transactionId == tid && d.userId == uid) with
      | none => rw [hf] at this; cases this
      | some d2 => rfl
    · intro hall
      unfold fileDispute
      rw [if_neg hguard, ht]
      have hf : db.disputes.find?
          (fun d => d.transactionId == tid && d.userId == uid) = none := by
        rw [List.find?_eq_none]
        intro d hdmem
        have := hall d hdmem
        simp only [Bool.and_eq_true, beq_iff_eq]
        intro hcon
        exact this ⟨hcon.1, hcon.2⟩
      rw [hf]
      rfl

/-- Witness for the amended C7: the characterization applied to a concrete
store with no prior dispute. -/
theorem fileDispute_spec_witness :
    ("fraud" : String) ≠ "" ∧ ("details" : String) ≠ "" ∧
    dbRefundCE.transactions.find? (fun t => t.id == 1 &&
      (t.senderId == 0 || t.recipientId == 0)) = some txnP2P ∧
    dbRefundCE.disputes = [] ∧
    fileDispute dbRefundCE 0 1 "fraud" "details" =
      .ok (freshDispute dbRefundCE 0 1,
           { dbRefundCE with
               disputes := dbRefundCE.disputes ++ [freshDispute dbRefundCE 0 1],
               nextId := 3 }) := by
  refine ⟨by decide, by decide, rfl, rfl, ?_⟩
  have h := (fileDispute_spec dbRefundCE 0 1 "fraud" "details"
    (by decide) (by decide)).2 txnP2P rfl
  exact h.2 (by intro d hdmem; cases hdmem)

/-- C6: resolving a dispute with a positive refund amount requires the
amount not to exceed the original movement's amount (otherwise
INVALID_REFUND_AMOUNT); on success exactly one compensating REFUND
movement of that amount is appended whose sender is the original
movement's recipient and whose recipient is the original movement's
sender — independent of which party filed the dispute, since only the
original movement's parties appear — and the dispute ends RESOLVED. -/
theorem resolveDispute_refund_spec (db : DB) (did : Nat) (res : String)
    (r : Int) (n : Int) (d : Dispute) (txn : Txn)
    (hres : res ≠ "")
    (hd : db.disputes.find? (fun x => x.id == did) = some d)
    (hst1 : d.status ≠ "RESOLVED") (hst2 : d.status ≠ "CLOSED")
    (ht : db.transactions.find? (fun t => t.id == d.transactionId) = some txn)
    (hr : 0 < r) :
    (txn.amount < r →
      resolveDispute db did res (some r) n = .error .INVALID_REFUND_AMOUNT) ∧
    (r ≤ txn.amount →
      (∃ x ∈ db.users, x.id = txn.senderId) →
      (∃ x ∈ db.users, x.id = txn.recipientId) →
      ∃ db2, resolveDispute db did res (some r) n =
          .ok ({ d with status := "RESOLVED", refundAmount := some r }, db2) ∧
        db2.transactions = db.transactions ++
          [{ id := db.nextId, senderId := txn.recipientId,
             recipientId := txn.senderId, amount := r,
             currency := txn.currency, transactionType := "REFUND",
             status := "COMPLETED", isFlagged := false, isRefunded := false,
             createdAt := n, emailPaymentId := none,
             originalTransactionId := some txn.id }] ∧
        db2.disputes.find? (fun x => x.id == did) =
          some { d with status := "RESOLVED", refundAmount := some r }) := by
  constructor
  · intro hlt
    simp [resolveDispute, hd, ht, hres, hst1, hst2, hr, hlt]
  · intro hge hs hrcp
    obtain ⟨xs, hxs, hxsid⟩ := hs
    obtain ⟨xr, hxr, hxrid⟩ := hrcp
    obtain ⟨users1, husers1⟩ :=
      updateById_isSome_of_mem (fun u => u.id) db.users txn.senderId
        (addBalance r) xs hxs hxsid
    have hids : users1.map (fun u => u.id) = db.users.map (fun u => u.id) :=
      updateById_map_key (fun u => u.id) db.users users1 txn.senderId
        (addBalance r)
        (fun x _ => (rfl : (addBalance r x).id = x.id)) husers1
    have hxr1 : ∃ y ∈ users1, y.id = txn.recipientId := by
      have : txn.recipientId ∈ users1.map (fun u => u.id) := by
        rw [hids]
        exact hxrid ▸ List.mem_map_of_mem (fun u => u.id) hxr
      obtain ⟨y, hy, hyid⟩ := List.mem_map.mp this
      exact ⟨y, hy, hyid⟩
    obtain ⟨y, hy, hyid⟩ := hxr1
    obtain ⟨users2, husers2⟩ :=
      updateById_isSome_of_mem (fun u => u.id) users1 txn.recipientId
        (addBalance (-r)) y hy hyid
    obtain ⟨pre, post, hdl, hpre, hupdD⟩ :=
      updateById_find_decomp (fun x => x.id) db.disputes did
        (fun _ => { d with status := "RESOLVED", refundAmount := some r })
        d hd
    have hdid : d.id = did := by
      simpa using List.find?_some hd
    refine ⟨{ db with
        users := users2,
        transactions := db.transactions ++
          [{ id := db.nextId, senderId := txn.recipientId,
             recipientId := txn.senderId, amount := r,
             currency := txn.currency, transactionType := "REFUND",
             status := "COMPLETED", isFlagged := false, isRefunded := false,
             createdAt := n, emailPaymentId := none,
             originalTransactionId := some txn.id }],
        disputes := pre ++
          { d with status := "RESOLVED", refundAmount := some r } :: post,
        nextId := db.nextId + 1 }, ?_, rfl, ?_⟩
    · have hnotlt : ¬ txn.amount < r := not_lt.mpr hge
      have hrne : ¬ ((r == 0) = true) := by simp [hr.ne']
      simp [resolveDispute, hd, ht, hres, hst1, hst2, hr, hnotlt,
        updateUser, updateDispute, husers1, husers2, hupdD, hrne]
    · refine find?_decomp _ pre post _ ?_ ?_
      · intro x hx
        simpa using hpre x hx
      · simpa using hdid

/-- Witness for C6: the resolution theorem applied to the concrete $100
movement disputed by its recipient and refunded for 30. -/
theorem resolveDispute_refund_spec_witness :
    ∃ db2, resolveDispute dbResolve 2 "refund approved" (some 30) 7 =
        .ok ({ openDispute with
                 status := "RESOLVED", refundAmount := some 30 }, db2) ∧
      db2.transactions = dbResolve.transactions ++
        [{ id := 3, senderId := 1, recipientId := 0, amount := 30,
           currency := "USDC", transactionType := "REFUND",
           status := "COMPLETED", isFlagged := false, isRefunded := false,
           createdAt := 7, emailPaymentId := none,
           originalTransactionId := some 1 }] ∧
      db2.disputes.find? (fun x => x.id == 2) =
        some { openDispute with
                 status := "RESOLVED", refundAmount := some 30 } :=
  (resolveDispute_refund_spec dbResolve 2 "refund approved" 30 7 openDispute
    txnP2P (by decide) rfl (by decide) (by decide) rfl (by decide)).2
    (by decide) (by decide) (by decide)

/-- C5, counterexample: with a velocity rule of max 3, a sender whose
trailing window holds three FAILED movements and one COMPLETED movement
triggers the source predicate (it counts four movements, filtering only on
sender and window), while the claimed count of completed movements is 1,
below the max; the claim that the rule counts completed movements is
false. -/
theorem checkVelocity_counts_all_statuses :
    checkVelocity velocityCond (mkSenderTxn 4 "COMPLETED" 0) dbVelocityCE 0 =
      true ∧
    specVelocityCount (mkSenderTxn 4 "COMPLETED" 0) dbVelocityCE 0 60 = 1 ∧
    ¬ (3 ≤ 1) := by
  exact ⟨rfl, rfl, by decide⟩

/-- C5, amended: the velocity rule counts the sender's movements of any
status inside the trailing window (conditions.timeWindowMinutes minutes,
default 60) and triggers exactly when that count reaches
conditions.maxTransactions (default 10); in the scenario store, evaluating
the rules against the sender's 4th transfer within 60 minutes produces
exactly one FraudAlert of type VELOCITY. -/
theorem checkVelocity_spec :
    (∀ cond t db now, checkVelocity cond t db now = true ↔
      jsOr cond.maxTransactions 10 ≤
        (velocityCount t db now (jsOr cond.timeWindowMinutes 60) : Int)) ∧
    checkTransaction (mkSenderTxn 4 "COMPLETED" 1800000) userA dbVelocity
        1800000 =
      [{ transactionId := 4, userId := 0, ruleId := 1,
         alertType := "VELOCITY", severity := "MEDIUM" }] := by
  constructor
  · intro cond t db now
    simp [checkVelocity, velocityCount]
  · rfl

/-- C4, counterexample: a claim at the exact expiry instant
(expiresAt = now) succeeds, because the source rejects only strictly-past
expiry (expiresAt < now); the claim's condition that success requires
expiresAt strictly later than now is therefore false at this input. -/
theorem claimPayment_expiry_boundary :
    epBoundary.expiresAt = 5 ∧ ¬ ((5 : Int) > 5) ∧
    epBoundary.status = "PENDING" ∧ userB.email = epBoundary.recipientEmail ∧
    claimPayment dbBoundary 1 "psc123" 5 =
      .ok ({ epBoundary with status := "CLAIMED", claimedById := some 1 },
        { users := [userA, { userB with balance := 25 }],
          transactions :=
            [{ id := 2, senderId := 0, recipientId := 1, amount := 25,
               currency := "USDC", transactionType := "EMAIL_PAYMENT",
               status := "COMPLETED", isFlagged := false, isRefunded := false,
               createdAt := 5, emailPaymentId := some 1,
               originalTransactionId := none }],
          emailPayments :=
            [{ epBoundary with status := "CLAIMED", claimedById := some 1 }],
          disputes := [], rules := [], nextId := 3 }) := by
  exact ⟨rfl, by decide, rfl, rfl, rfl⟩

/-- C4, amended: claiming succeeds if and only if a pending hold carries
the code, its expiresAt is NOT strictly earlier than now (expiry at the
exact instant still claims), the claimant exists and the claimant's email
equals the hold's recipientEmail; on success the hold turns CLAIMED, the
claimant is credited by exactly the hold amount, and exactly one
EMAIL_PAYMENT movement linked to the hold is appended; otherwise the claim
is rejected with PAYMENT_NOT_FOUND (no pending hold: the AlreadyClaimed
case), PAYMENT_EXPIRED, USER_NOT_FOUND or UNAUTHORIZED (email mismatch),
and — holds having unique ids and the code being on at most one hold — any
second claim with the same code afterwards fails with PAYMENT_NOT_FOUND,
so claiming is exactly-once per hold. -/
theorem claimPayment_spec (db : DB) (uid : Nat) (code : String) (now : Int)
    (hcode : code ≠ "") :
    (db.emailPayments.find? (pendingWithCode code) = none →
      claimPayment db uid code now = .error .PAYMENT_NOT_FOUND) ∧
    (∀ ep, db.emailPayments.find? (pendingWithCode code) = some ep →
      (ep.expiresAt < now →
        claimPayment db uid code now = .error .PAYMENT_EXPIRED) ∧
      (¬ ep.expiresAt < now →
        (db.users.find? (fun x => x.id == uid) = none →
          claimPayment db uid code now = .error .USER_NOT_FOUND) ∧
        (∀ u, db.users.find? (fun x => x.id == uid) = some u →
          (u.email ≠ ep.recipientEmail →
            claimPayment db uid code now = .error .UNAUTHORIZED) ∧
          (u.email = ep.recipientEmail →
            (db.emailPayments.map (fun e => e.id)).Nodup →
            (db.emailPayments.filter
               (fun e => e.claimCode == code)).length ≤ 1 →
            ∃ db2, claimPayment db uid code now =
                .ok ({ ep with
                         status := "CLAIMED", claimedById := some uid },
                     db2) ∧
              getBalance db2 uid = some (u.balance + ep.amount) ∧
              db2.transactions = db.transactions ++
                [{ id := db.nextId, senderId := ep.senderId,
                   recipientId := uid, amount := ep.amount,
                   currency := ep.currency,
                   transactionType := "EMAIL_PAYMENT", status := "COMPLETED",
                   isFlagged := false, isRefunded := false, createdAt := now,
                   emailPaymentId := some ep.id,
                   originalTransactionId := none }] ∧
              ∀ uid2 now2, claimPayment db2 uid2 code now2 =
                .error .PAYMENT_NOT_FOUND)))) := by
  constructor
  · intro hnone
    simp [claimPayment, hcode, hnone]
  · intro ep hep
    have hfacts := List.find?_some hep
    simp only [pendingWithCode, Bool.and_eq_true, beq_iff_eq] at hfacts
    obtain ⟨hcc, hpend⟩ := hfacts
    constructor
    · intro hexp
      simp [claimPayment, hcode, hep, hexp]
    · intro hnexp
      constructor
      · intro hun
        simp [claimPayment, hcode, hep, hnexp, hun]
      · intro u hu
        constructor
        · intro hne
          simp [claimPayment, hcode, hep, hnexp, hu, hne]
        · intro heq hnd hcount
          have hmem : ep ∈ db.emailPayments := List.mem_of_find?_eq_some hep
          obtain ⟨eps1, heps1⟩ :=
            updateById_isSome_of_mem (fun e => e.id) db.emailPayments ep.id
              (fun _ =>
                { ep with status := "CLAIMED", claimedById := some uid })
              ep hmem rfl
          obtain ⟨pre, post, hdecomp, heps1eq⟩ :=
            updateById_nodup_decomp (fun e => e.id) db.emailPayments eps1
              ep.id
              (fun _ =>
                { ep with status := "CLAIMED", claimedById := some uid })
              ep hnd hmem rfl heps1
          obtain ⟨preU, postU, hUdecomp, hpreU, hupdU⟩ :=
            updateById_find_decomp (fun x => x.id) db.users uid
              (addBalance ep.amount) u hu
          have huid : u.id = uid := by
            simpa using List.find?_some hu
          refine ⟨{ db with
                      users := preU ++ addBalance ep.amount u :: postU,
                      emailPayments := eps1,
                      transactions := db.transactions ++
                        [{ id := db.nextId, senderId := ep.senderId,
                           recipientId := uid, amount := ep.amount,
                           currency := ep.currency,
                           transactionType := "EMAIL_PAYMENT",
                           status := "COMPLETED", isFlagged := false,
                           isRefunded := false, createdAt := now,
                           emailPaymentId := some ep.id,
                           originalTransactionId := none }],
                      nextId := db.nextId + 1 }, ?_, ?_, rfl, ?_⟩
          · simp [claimPayment, hcode, hep, hnexp, hu, heq,
              updateEmailPayment, updateUser, heps1, hupdU]
          · have hfind : (preU ++ addBalance ep.amount u :: postU).find?
                (fun x => x.id == uid) = some (addBalance ep.amount u) := by
              refine find?_decomp _ preU postU _ ?_ ?_
              · intro x hx
                simpa using hpreU x hx
              · simpa using huid
            simp only [getBalance]
            rw [hfind]
            simp [addBalance]
          · intro uid2 now2
            have hfnone : eps1.find? (pendingWithCode code) = none := by
              rw [List.find?_eq_none]
              intro x hx
              rw [heps1eq] at hx
              have hfpre : ∀ z ∈ pre, (z.claimCode == code) = false := by
                have hfilter : db.emailPayments.filter
                    (fun e => e.claimCode == code) =
                    pre.filter (fun e => e.claimCode == code) ++
                    ep :: post.filter (fun e => e.claimCode == code) := by
                  rw [hdecomp, List.filter_append, List.filter_cons]
                  simp [hcc]
                have hlen : (pre.filter
                    (fun e => e.claimCode == code)).length = 0 := by
                  rw [hfilter] at hcount
                  simp at hcount
                  omega
                intro z hz
                have := List.filter_eq_nil_iff.mp (List.length_eq_zero.mp hlen)
                simpa using this z hz
              rcases List.mem_append.mp hx with hx | hx
              · simp [pendingWithCode, hfpre x hx]
              · rcases List.mem_cons.mp hx with rfl | hx
                · simp [pendingWithCode]
                · have hfpost : ∀ z ∈ post, (z.claimCode == code) = false := by
                    have hfilter : db.emailPayments.filter
                        (fun e => e.claimCode == code) =
                        pre.filter (fun e => e.claimCode == code) ++
                        ep :: post.filter (fun e => e.claimCode == code) := by
                      rw [hdecomp, List.filter_append, List.filter_cons]
                      simp [hcc]
                    have hlen : (post.filter
                        (fun e => e.claimCode == code)).length = 0 := by
                      rw [hfilter] at hcount
                      simp at hcount
                      omega
                    intro z hz
                    have := List.filter_eq_nil_iff.mp (List.length_eq_zero.mp hlen)
                    simpa using this z hz
                  simp [pendingWithCode, hfpost x hx]
            simp [claimPayment, hcode, hfnone]

/-- Witness for the amended C4: the characterization applied to the
concrete escrow scenario; B claims the 25-unit hold, reaching balance 65,
and every later claim with the same code is rejected. -/
theorem claimPayment_spec_witness :
    ∃ db2, claimPayment dbClaim 1 "code25" 0 =
        .ok ({ epClaim with status := "CLAIMED", claimedById := some 1 },
             db2) ∧
      getBalance db2 1 = some 65 ∧
      db2.transactions =
        [{ id := 2, senderId := 0, recipientId := 1, amount := 25,
           currency := "USDC", transactionType := "EMAIL_PAYMENT",
           status := "COMPLETED", isFlagged := false, isRefunded := false,
           createdAt := 0, emailPaymentId := some 1,
           originalTransactionId := none }] ∧
      ∀ uid2 now2, claimPayment db2 uid2 "code25" now2 =
        .error .PAYMENT_NOT_FOUND :=
  ((((claimPayment_spec dbClaim 1 "code25" 0 (by decide)).2 epClaim
    rfl).2 (by decide)).2 { userB with balance := 40 } rfl).2 rfl
    (by decide) (by decide)

end MayaSend
